import Mathlib

/-!
Verification development for the `streamkinect2` repository: a shallow
embedding of the wire codec (`common.py`), the server control handling
(`server.py`), the client session state machine (`client.py`), the depth
frame compression pipeline (`compress.py`) and the zeroconf server browser
(`server.py`), together with theorems settling the specification claims.

Modelling conventions:
* Python machine-level values are `Nat`/`Int`; byte truncation is explicit.
* JSON documents are the inductive `Json`; the Python `json.dumps` /
  `json.loads` pair of the standard library is an external bijection between
  JSON values and their UTF-8 encodings, so a serialized payload frame is
  modelled as the constructor `Bytes.jsonUtf8` holding the JSON value itself,
  and `json.loads` on such a frame returns that value.
* Python exceptions are an explicit `raised` field threaded alongside the
  mutated state, since an exception escaping a handler leaves all mutations
  made before the raise in place (the tornado IO loop logs it and continues).
-/

namespace Streamkinect2

/-- Python exception kinds that the embedded code can raise. -/
inductive PyError where
  | valueError (msg : String)
  | keyError
  | typeError
  | indexError
  | runtimeError (msg : String)
  | protocolError (msg : String)
  | attributeError
  | unboundLocalError
  | assertionError
deriving DecidableEq, Repr

/-- JSON documents, the payload values of control messages. Numbers are
modelled as integers (the payloads the program builds use only integers). -/
inductive Json where
  | null
  | bool (b : Bool)
  | num (n : Int)
  | str (s : String)
  | arr (elems : List Json)
  | obj (fields : List (String × Json))

mutual

/-- Structural equality of JSON values (Python `==` on parsed JSON). -/
def Json.beq : Json → Json → Bool
  | .null, .null => true
  | .bool a, .bool c => a == c
  | .num a, .num c => a == c
  | .str a, .str c => a == c
  | .arr a, .arr c => Json.beqList a c
  | .obj a, .obj c => Json.beqFields a c
  | _, _ => false

/-- Elementwise equality of JSON arrays. -/
def Json.beqList : List Json → List Json → Bool
  | [], [] => true
  | x :: xs, y :: ys => Json.beq x y && Json.beqList xs ys
  | _, _ => false

/-- Fieldwise equality of JSON objects (field order significant, matching
the insertion-ordered dictionaries the program builds). -/
def Json.beqFields : List (String × Json) → List (String × Json) → Bool
  | [], [] => true
  | (k, v) :: xs, (l, w) :: ys => k == l && Json.beq v w && Json.beqFields xs ys
  | _, _ => false

end

instance : BEq Json := ⟨Json.beq⟩

/-- Embedding of `MessageType` from `common.py`: the closed enumeration of control tags. -/
inductive MessageType where
  | error
  | ping
  | pong
  | who
  | me
deriving DecidableEq, Repr

/-- The tag byte of a message type (`MessageType.value` in `common.py`). -/
def MessageType.value : MessageType → Nat
  | .error => 0
  | .ping => 1
  | .pong => 2
  | .who => 3
  | .me => 4

/-- One part of a zeromq multipart message: either a raw tag byte or the
UTF-8 JSON encoding of a payload (kept abstract as the JSON value, see the
module conventions). -/
inductive Bytes where
  | tagByte (b : Nat)
  | jsonUtf8 (j : Json)

/-- Python `MessageType(b)` on a byte: the enum member with that value, or a
`ValueError` for a byte outside the enumeration. -/
def MessageType.ofByte : Bytes → Except PyError MessageType
  | .tagByte 0 => .ok .error
  | .tagByte 1 => .ok .ping
  | .tagByte 2 => .ok .pong
  | .tagByte 3 => .ok .who
  | .tagByte 4 => .ok .me
  | _ => .error (.valueError "not a valid MessageType")

/-- Python `json.loads(part.decode('utf8'))`: succeeds exactly on a frame
that is the UTF-8 JSON encoding of some value; a raw tag byte is not valid
JSON and fails with a `ValueError` (`JSONDecodeError`). -/
def json_loads : Bytes → Except PyError Json
  | .jsonUtf8 j => .ok j
  | .tagByte _ => .error (.valueError "invalid JSON")

/-- Embedding of `make_msg` from `common.py`: a single-part message for a `None` payload,
otherwise the tag byte followed by the JSON-encoded payload. -/
def make_msg (type : MessageType) (payload : Option Json) : List Bytes :=
  match payload with
  | none => [.tagByte type.value]
  | some p => [.tagByte type.value, .jsonUtf8 p]

/-- Embedding of `parse_msg` from `common.py`: decode a one- or two-part message into a
`(type, payload)` pair; any other length raises `ValueError`. -/
def parse_msg (msg : List Bytes) : Except PyError (MessageType × Option Json) :=
  match msg with
  | [b] => do
      let t ← MessageType.ofByte b
      return (t, none)
  | [b, p] => do
      let t ← MessageType.ofByte b
      let j ← json_loads p
      return (t, some j)
  | _ => .error (.valueError "Multipart message must have length 1 or 2")

/-- The human-readable text carried by an exception (Python `str(e)`). -/
def PyError.text : PyError → String
  | .valueError m => m
  | .runtimeError m => m
  | .protocolError m => m
  | .keyError => "KeyError"
  | .typeError => "TypeError"
  | .indexError => "IndexError"
  | .attributeError => "AttributeError"
  | .unboundLocalError => "UnboundLocalError"
  | .assertionError => "AssertionError"

/-- Embedding of `EndpointType` from `common.py`: the closed set of endpoint kinds. -/
inductive EndpointType where
  | control
  | depth
deriving DecidableEq, Repr

/-- The `.name` attribute of an `EndpointType` member, used as a JSON key. -/
def EndpointType.name : EndpointType → String
  | .control => "control"
  | .depth => "depth"

/-- Iteration order of `for ep_type in EndpointType` (definition order). -/
def EndpointType.members : List EndpointType := [.control, .depth]

/-- Python `str.format` rendering of a `MessageType` member. -/
def MessageType.pyStr : MessageType → String
  | .error => "MessageType.error"
  | .ping => "MessageType.ping"
  | .pong => "MessageType.pong"
  | .who => "MessageType.who"
  | .me => "MessageType.me"

/-- Lookup in an insertion-ordered dictionary (Python `d[k]` successfully). -/
def assocLookup {α β : Type} [BEq α] : List (α × β) → α → Option β
  | [], _ => none
  | (a, b) :: rest, k => if a == k then some b else assocLookup rest k

/-- Insert-or-replace in an insertion-ordered dictionary (`d[k] = v`). -/
def assocSet {α β : Type} [BEq α] : List (α × β) → α → β → List (α × β)
  | [], k, v => [(k, v)]
  | (a, b) :: rest, k, v =>
      if a == k then (a, v) :: rest else (a, b) :: assocSet rest k v

/-- Deletion from an insertion-ordered dictionary (`del d[k]`). -/
def assocErase {α β : Type} [BEq α] : List (α × β) → α → List (α × β)
  | [], _ => []
  | (a, b) :: rest, k =>
      if a == k then rest else (a, b) :: assocErase rest k

/-- The key list of an insertion-ordered dictionary (`d.keys()`). -/
def assocKeys {α β : Type} (l : List (α × β)) : List α := l.map Prod.fst

/-! ### Server (`server.py`) -/

/-- Server-side `_KinectRecord`: the per-device endpoint dictionary and the
per-device publish streams (streams identified by opaque ids). -/
structure SKinectRecord where
  endpoints : List (EndpointType × String)
  streams : List (EndpointType × Nat)

/-- The server state read by the control handlers: its name, its endpoint
dictionary and the kinect registry keyed by `unique_kinect_id`. -/
structure ServerState where
  name : String
  endpoints : List (EndpointType × String)
  kinects : List (String × SKinectRecord)

/-- Embedding of `Server._current_me`: the identity payload built from the current state,
with dictionary keys in insertion order. -/
def ServerState.current_me (s : ServerState) : Json :=
  .obj [
    ("version", .num 1),
    ("name", .str s.name),
    ("endpoints", .obj (s.endpoints.map fun kv => (kv.1.name, .str kv.2))),
    ("devices", .arr (s.kinects.map fun kr =>
      .obj [
        ("id", .str kr.1),
        ("endpoints", .obj (kr.2.endpoints.map fun kv => (kv.1.name, .str kv.2)))]))]

/-- Embedding of `Server._handle_control`: dispatch a parsed control message to the pair
giving the reply type and payload. -/
def ServerState.handle_control (s : ServerState) (type : MessageType)
    (_payload : Option Json) : MessageType × Option Json :=
  match type with
  | .ping => (.pong, none)
  | .who => (.me, some s.current_me)
  | t => (.error, some (.obj [
      ("code", .num 400),
      ("reason", .str ("Unknown message type \x22" ++ t.pyStr ++ "\x22"))]))

/-- Embedding of `Server._control_recv`: parse an incoming control frame and send back the
reply; a parse failure is answered with a code-400 error reply instead of
being dropped. The returned list is the sequence of multipart messages sent
on the stream. -/
def ServerState.control_recv (s : ServerState) (msg : List Bytes) : List (List Bytes) :=
  match parse_msg msg with
  | .error e =>
      [make_msg .error (some (.obj [("code", .num 400), ("reason", .str e.text)]))]
  | .ok (type, payload) =>
      let r := s.handle_control type payload
      [make_msg r.1 r.2]

/-- Observable actions of `Server._on_compressed_frame`. -/
inductive SEffect where
  | warnLog
  | streamSend (streamId : Nat) (frame : List Nat)
  | streamFlush (streamId : Nat)

/-- Result of running a server callback: the actions performed and the
exception escaping it, if any. -/
structure SOutcome where
  effects : List SEffect
  raised : Option PyError

/-- Embedding of `Server._on_compressed_frame`: look up the record for the originating
kinect; on a missing record the `except KeyError` arm only logs a warning and
falls through, so the subsequent use of `record` raises `UnboundLocalError`;
otherwise the frame is sent and flushed on the device's depth stream. -/
def ServerState.on_compressed_frame (s : ServerState) (kinect_id : String)
    (compressed_frame : List Nat) : SOutcome :=
  match assocLookup s.kinects kinect_id with
  | none => ⟨[.warnLog], some .unboundLocalError⟩
  | some record =>
      match assocLookup record.streams EndpointType.depth with
      | none => ⟨[], some .keyError⟩
      | some st => ⟨[.streamSend st compressed_frame, .streamFlush st], none⟩

/-! ### Depth frame compression (`compress.py`) -/

/-- A raw depth frame: 16-bit samples in C order and a `(width, height)`
shape, as produced by the device. -/
structure DepthFrame where
  data : List Nat
  shape : Nat × Nat

/-- The 8-bit raster produced by `_compress_depth_frame` before encoding:
the buffer viewed as `height` rows of `width` 16-bit samples
(`reshape(shape[::-1])`), each sample right-shifted by 4 bits and truncated
to 8 bits (`astype(np.uint8)`). -/
def depthRaster (f : DepthFrame) : List (List Nat) :=
  (List.range f.shape.2).map fun r =>
    ((f.data.drop (r * f.shape.1)).take f.shape.1).map fun v => (v >>> 4) % 256

/-- Embedding of `_compress_depth_frame` from `compress.py`: reinterpret the buffer as a
height-by-width array of 16-bit samples, right-shift by 4 and truncate to
8 bits, then hand the 8-bit raster to the external JPEG still-image encoder
(`PIL.Image.save(..., 'jpeg')`, modelled as the `jpeg_encode` parameter). -/
def _compress_depth_frame (jpeg_encode : List (List Nat) → List Nat)
    (depth_frame : DepthFrame) : List Nat :=
  let w := depth_frame.shape.1
  let h := depth_frame.shape.2
  let d := (List.range h).map fun r => (depth_frame.data.drop (r * w)).take w
  let d8 := d.map fun row => row.map fun v => (v >>> 4) % 256
  jpeg_encode d8

/-- State of a `DepthFrameCompressor`: the in-flight counter and the drop
counter (`_n_in_flight`, `_n_dropped` from `compress.py`). -/
structure CompressorState where
  n_in_flight : Int
  n_dropped : Int

namespace DepthFrameCompressor

/-- The compressor state set up by `DepthFrameCompressor.__init__`. -/
def initState : CompressorState := ⟨0, 0⟩

/-- Embedding of `_MAX_IN_FLIGHT = cpu_count() + 1` from `compress.py`. -/
def _MAX_IN_FLIGHT (cpuCount : Nat) : Nat := cpuCount + 1

/-- Observable actions of the compressor callbacks: submitting a frame to the
worker pool, scheduling an emission of `on_compressed_frame`, and the
coalesced drop warning. -/
inductive PEffect where
  | submit
  | emitFrame
  | warnDropped (n : Int)

/-- Embedding of `DepthFrameCompressor._on_depth_frame`: submit the frame to the pool when
fewer than `_MAX_IN_FLIGHT` frames are outstanding, otherwise drop it,
incrementing the drop counter and warning on every tenth drop. -/
def _on_depth_frame (maxInFlight : Int) (s : CompressorState) :
    CompressorState × List PEffect :=
  if s.n_in_flight < maxInFlight then
    ({ s with n_in_flight := s.n_in_flight + 1 }, [.submit])
  else
    let d := s.n_dropped + 1
    ({ s with n_dropped := d }, if d % 10 = 0 then [.warnDropped d] else [])

/-- Embedding of `DepthFrameCompressor._on_compressed_frame`: record the arrival of a
compressed frame and schedule the emission onto the IO loop. -/
def _on_compressed_frame (s : CompressorState) : CompressorState × List PEffect :=
  ({ s with n_in_flight := s.n_in_flight - 1 }, [.emitFrame])

/-- The two events driving the compressor: a depth frame arriving from the
device thread, and a completion callback from the worker pool. -/
inductive PoolEvent where
  | depthFrame
  | completion

/-- One event step of the compressor. -/
def poolStep (m : Int) (s : CompressorState) : PoolEvent → CompressorState × List PEffect
  | .depthFrame => _on_depth_frame m s
  | .completion => _on_compressed_frame s

/-- Run the compressor over a sequence of events, collecting effects. -/
def poolRun (m : Int) (s : CompressorState) :
    List PoolEvent → CompressorState × List PEffect
  | [] => (s, [])
  | e :: tr =>
      let r := poolStep m s e
      let rest := poolRun m r.1 tr
      (rest.1, r.2 ++ rest.2)

/-- Event sequences that the worker pool can actually produce: a completion
callback fires only for a frame that was submitted and is still outstanding,
so a completion requires a positive in-flight count. -/
inductive ValidPoolTrace (m : Int) : CompressorState → List PoolEvent → Prop
  | nil {s} : ValidPoolTrace m s []
  | frame {s tr} : ValidPoolTrace m (_on_depth_frame m s).1 tr →
      ValidPoolTrace m s (.depthFrame :: tr)
  | done {s tr} : 0 < s.n_in_flight → ValidPoolTrace m (_on_compressed_frame s).1 tr →
      ValidPoolTrace m s (.completion :: tr)

end DepthFrameCompressor

/-! ### Client (`client.py`) -/

/-- Python `k in j` for a string `k` and a parsed JSON value `j`: key
membership on objects, element membership on arrays, substring containment on
strings, `TypeError` otherwise. -/
def pyContains (j : Json) (k : String) : Except PyError Bool :=
  match j with
  | .obj fields => .ok (fields.any fun kv => kv.1 == k)
  | .arr elems => .ok (elems.any fun e => Json.beq e (.str k))
  | .str s => .ok (String.containsSubstr s k.toSubstring)
  | _ => .error .typeError

/-- Python `j[k]` for a string key `k`: object field lookup (`KeyError` when
missing); arrays and strings reject string indices, other values are not
subscriptable (`TypeError`). -/
def pyGetItem (j : Json) (k : String) : Except PyError Json :=
  match j with
  | .obj fields =>
      match assocLookup fields k with
      | some v => .ok v
      | none => .error .keyError
  | _ => .error .typeError

/-- Python `j == 1` for a parsed JSON value (`True == 1` holds in Python). -/
def pyEqOne (j : Json) : Bool :=
  match j with
  | .num n => n == 1
  | .bool b => b
  | _ => false

/-- The response handlers that `Client` enqueues: the `pong` closure from
`ping` (carrying the opaque id of the user's `pong_cb`, if any) and the
`got_me` closure from `_who_me`. -/
inductive Handler where
  | pong (pong_cb : Option Nat)
  | got_me

/-- Client-side `_KinectRecord`: per-device endpoint dictionary and the
per-endpoint subscriber streams (`None` meaning recorded but unsubscribed). -/
structure CKinectRecord where
  endpoints : List (EndpointType × Json)
  streams : List (EndpointType × Option Nat)

/-- The mutable state of a `Client`. Sockets and IO-loop timeout handles are
identified by opaque ids drawn from the `next_stream_id` / `next_timeout_id`
counters (model bookkeeping for object identity). -/
structure ClientState where
  is_connected : Bool
  server_name : Option Json
  endpoints : List (EndpointType × Json)
  heartbeat_active : Bool
  request_max_tries : Int
  response_handlers : List (Option Handler)
  kinect_records : List (Json × CKinectRecord)
  control_stream : Option Nat
  request_timeout_handles : List Nat
  request_message_queue : List (MessageType × Option Json)
  request_tries_left : Int
  next_timeout_id : Nat
  next_stream_id : Nat

/-- Observable actions of the client: emitted signals, socket sends, timeout
cancellations, handler invocations, user callbacks, log lines and, in trace
runs, exceptions escaping into the IO loop. -/
inductive Effect where
  | sigConnect
  | sigDisconnect
  | sigAddKinect (kinect_id : Json)
  | sigRemoveKinect (kinect_id : Json)
  | sendMultipart (streamId : Nat) (msg : List Bytes)
  | cancelTimeout (handle : Nat)
  | invokeHandler (h : Handler)
  | userPongCb (cb : Nat)
  | logWarn
  | logError
  | raisedErr (e : PyError)

/-- True exactly on the `on_disconnect` emission. -/
def Effect.isSigDisconnect : Effect → Bool
  | .sigDisconnect => true
  | _ => false

/-- Result of one client operation: the state after it (including all
mutations made before any raise), the actions performed, and the exception
escaping it, if any. -/
structure Outcome where
  state : ClientState
  effects : List Effect
  raised : Option PyError

/-- Sequence a second operation after an outcome, skipped when the first
raised. -/
def Outcome.thenRun (o : Outcome) (f : ClientState → Outcome) : Outcome :=
  match o.raised with
  | some _ => o
  | none =>
      let r := f o.state
      ⟨r.state, o.effects ++ r.effects, r.raised⟩

namespace Client

/-- The state built by `Client.__init__` (without `connect_immediately`). -/
def init (control_endpoint : Json) : ClientState where
  is_connected := false
  server_name := none
  endpoints := [(.control, control_endpoint)]
  heartbeat_active := false
  request_max_tries := 3
  response_handlers := []
  kinect_records := []
  control_stream := none
  request_timeout_handles := []
  request_message_queue := []
  request_tries_left := 3
  next_timeout_id := 0
  next_stream_id := 0

/-- Embedding of `Client._connect_control_endpoint`: drop any existing control stream and
create, connect and wire up a fresh one. -/
def _connect_control_endpoint (s : ClientState) : ClientState :=
  { s with control_stream := some s.next_stream_id,
           next_stream_id := s.next_stream_id + 1 }

/-- Embedding of `Client._control_send`: record the message in the request queue, arm a
request timeout, append the response handler, then transmit the encoded
message on the control stream (an absent stream raises `AttributeError`
after the queue mutations, mirroring `None.send_multipart`). -/
def _control_send (type : MessageType) (payload : Option Json)
    (recv_cb : Option Handler) (s : ClientState) : Outcome :=
  let s1 := { s with
    request_message_queue := s.request_message_queue ++ [(type, payload)],
    request_timeout_handles := s.request_timeout_handles ++ [s.next_timeout_id],
    next_timeout_id := s.next_timeout_id + 1,
    response_handlers := s.response_handlers ++ [recv_cb] }
  match s1.control_stream with
  | some st => ⟨s1, [.sendMultipart st (make_msg type payload)], none⟩
  | none => ⟨s1, [], some .attributeError⟩

/-- Embedding of `Client._who_me`: send a `who` request with the `got_me` handler. -/
def _who_me (s : ClientState) : Outcome :=
  _control_send .who none (some .got_me) s

/-- Embedding of `Client.connect`: a warning no-op when already connected; otherwise
create the control stream, reset the re-try queues and the tries counter,
mark connected, issue the initial `who`, start the heartbeat and emit
`on_connect`. The `_response_handlers` deque is not touched. -/
def connect (s : ClientState) : Outcome :=
  if s.is_connected then ⟨s, [.logWarn], none⟩
  else
    let s1 := _connect_control_endpoint s
    let s2 := { s1 with
      request_timeout_handles := [],
      request_message_queue := [],
      request_tries_left := s1.request_max_tries,
      is_connected := true }
    (_who_me s2).thenRun fun s3 =>
      ⟨{ s3 with heartbeat_active := true }, [.sigConnect], none⟩

/-- Embedding of `Client.disconnect`: a warning no-op when not connected; otherwise cancel
all pending request timeouts, drop the message queue, stop the heartbeat,
release the control stream, mark disconnected and emit `on_disconnect`. The
`_response_handlers` deque and the kinect records are not touched. -/
def disconnect (s : ClientState) : Outcome :=
  if s.is_connected then
    ⟨{ s with
        request_timeout_handles := [],
        request_message_queue := [],
        heartbeat_active := false,
        control_stream := none,
        is_connected := false },
      s.request_timeout_handles.map Effect.cancelTimeout ++ [.sigDisconnect], none⟩
  else ⟨s, [.logWarn], none⟩

/-- Embedding of `Client.ping`: `_ensure_connected` raises `RuntimeError` when
disconnected; otherwise send `ping` with the `pong` handler. -/
def ping (pong_cb : Option Nat) (s : ClientState) : Outcome :=
  if s.is_connected then _control_send .ping none (some (.pong pong_cb)) s
  else ⟨s, [], some (.runtimeError "Client is not connected")⟩

/-- Embedding of `Client.enable_depth_frames`: an unknown kinect id raises `ValueError`;
otherwise create a subscriber stream connected to the record's depth endpoint
and store it in the record. There is no connectedness check. -/
def enable_depth_frames (kinect_id : Json) (s : ClientState) : Outcome :=
  match assocLookup s.kinect_records kinect_id with
  | none => ⟨s, [], some (.valueError "Kinect id does not correspond to a connected device")⟩
  | some record =>
      match assocLookup record.endpoints .depth with
      | none => ⟨s, [], some .keyError⟩
      | some (.str _) =>
          let record' := { record with
            streams := assocSet record.streams .depth (some s.next_stream_id) }
          ⟨{ s with
              kinect_records := assocSet s.kinect_records kinect_id record',
              next_stream_id := s.next_stream_id + 1 }, [], none⟩
      | some _ => ⟨s, [], some .typeError⟩

/-- The `try: ep = device['endpoints'][ep_type.name] except KeyError: pass`
block of `got_me`: only `KeyError` is swallowed, leaving `ep = None`. -/
def deviceEndpointLookup (device : Json) (epName : String) :
    Except PyError (Option Json) :=
  match pyGetItem device "endpoints" with
  | .error .keyError => .ok none
  | .error e => .error e
  | .ok eps =>
      match pyGetItem eps epName with
      | .error .keyError => .ok none
      | .error e => .error e
      | .ok v => .ok (some v)

/-- One iteration of `got_me`'s per-device endpoint loop: a vanished endpoint
is deleted from the record together with its stream; a new or changed one is
recorded with its stream reset to absent. -/
def updateRecordForEp (device : Json) (ep_type : EndpointType)
    (record : CKinectRecord) : Except PyError CKinectRecord := do
  let ep ← deviceEndpointLookup device ep_type.name
  match ep with
  | none =>
      if (assocLookup record.endpoints ep_type).isSome then
        return { record with
          endpoints := assocErase record.endpoints ep_type,
          streams := assocErase record.streams ep_type }
      else
        return record
  | some v =>
      match assocLookup record.endpoints ep_type with
      | some old =>
          if Json.beq old v then return record
          else return { record with
            endpoints := assocSet record.endpoints ep_type v,
            streams := assocSet record.streams ep_type none }
      | none =>
          return { record with
            endpoints := assocSet record.endpoints ep_type v,
            streams := assocSet record.streams ep_type none }

/-- One iteration of `got_me`'s device loop: fetch or create the record for
`device['id']` (always from the pre-reply records) and refresh it for every
endpoint type in definition order. -/
def processDevice (oldRecords : List (Json × CKinectRecord)) (device : Json) :
    Except PyError (Json × CKinectRecord) := do
  let did ← pyGetItem device "id"
  let record := (assocLookup oldRecords did).getD ⟨[], []⟩
  let r1 ← updateRecordForEp device .control record
  let r2 ← updateRecordForEp device .depth r1
  return (did, r2)

/-- Embedding of `got_me`'s device loop: build the new record dictionary in payload
order. -/
def processDevices (oldRecords : List (Json × CKinectRecord)) :
    List Json → List (Json × CKinectRecord) →
    Except PyError (List (Json × CKinectRecord))
  | [], acc => .ok acc
  | device :: rest, acc =>
      match processDevice oldRecords device with
      | .error e => .error e
      | .ok dr => processDevices oldRecords rest (assocSet acc dr.1 dr.2)

/-- Embedding of `got_me`'s server-endpoint loop: for each endpoint type, adopt the
payload's endpoint when present, skipping absent keys (`KeyError` only). -/
def updateClientEndpoints (eps : Json) :
    List EndpointType → List (EndpointType × Json) →
    Except PyError (List (EndpointType × Json))
  | [], acc => .ok acc
  | ept :: rest, acc =>
      match pyGetItem eps ept.name with
      | .ok v => updateClientEndpoints eps rest (assocSet acc ept v)
      | .error .keyError => updateClientEndpoints eps rest acc
      | .error e => .error e

/-- Membership of a JSON value in a list of JSON values (Python `in` on a
set of dictionary keys). -/
def jsonMem (x : Json) (l : List Json) : Bool := l.any (Json.beq x)

/-- The `got_me` handler from `Client._who_me`: reject a non-`me` reply type
and a missing or non-1 protocol version with `ProtocolError`; then record the
server name, rebuild the kinect records from the payload's device list,
adopt the payload's server endpoints, and emit `on_add_kinect` /
`on_remove_kinect` for the symmetric difference of the device-id sets.
Exceptions raised part-way leave the mutations already made in place. -/
def got_me (type : MessageType) (payload : Option Json) (s : ClientState) : Outcome :=
  if type = MessageType.me then
    match payload with
    | none => ⟨s, [.logError], some (.protocolError "unknown server protocol")⟩
    | some pl =>
        match pyContains pl "version" with
        | .error e => ⟨s, [], some e⟩
        | .ok false => ⟨s, [.logError], some (.protocolError "unknown server protocol")⟩
        | .ok true =>
            match pyGetItem pl "version" with
            | .error e => ⟨s, [], some e⟩
            | .ok v =>
                if pyEqOne v then
                  match pyGetItem pl "name" with
                  | .error e => ⟨s, [], some e⟩
                  | .ok nm =>
                      let s1 := { s with server_name := some nm }
                      let old_ids := assocKeys s1.kinect_records
                      match pyGetItem pl "devices" with
                      | .error e => ⟨s1, [], some e⟩
                      | .ok (.arr devices) =>
                          match processDevices s1.kinect_records devices [] with
                          | .error e => ⟨s1, [], some e⟩
                          | .ok newRecords =>
                              let s2 := { s1 with kinect_records := newRecords }
                              match pyGetItem pl "endpoints" with
                              | .error e => ⟨s2, [], some e⟩
                              | .ok eps =>
                                  match updateClientEndpoints eps
                                      EndpointType.members s2.endpoints with
                                  | .error e => ⟨s2, [], some e⟩
                                  | .ok newEps =>
                                      let s3 := { s2 with endpoints := newEps }
                                      let new_ids := assocKeys s3.kinect_records
                                      let added := new_ids.filter
                                        fun i => ¬ jsonMem i old_ids
                                      let removed := old_ids.filter
                                        fun i => ¬ jsonMem i new_ids
                                      ⟨s3,
                                        added.map Effect.sigAddKinect ++
                                          removed.map Effect.sigRemoveKinect, none⟩
                      | .ok _ => ⟨s1, [], some .typeError⟩
                else ⟨s, [.logError], some (.protocolError "unknown server protocol")⟩
  else
    ⟨s, [], some (.protocolError
      ("Expected me list but got \x22" ++ type.pyStr ++ "\x22 instead"))⟩

/-- Dispatch a popped response handler on the parsed reply. -/
def runHandler (h : Handler) (type : MessageType) (payload : Option Json)
    (s : ClientState) : Outcome :=
  match h with
  | .pong cb =>
      ⟨s, (match cb with | some c => [.userPongCb c] | none => []), none⟩
  | .got_me => got_me type payload s

/-- Embedding of `Client._control_recv`: ignore traffic when disconnected; pop and cancel
the head request timeout (an empty deque is tolerated), pop the head request
message (an empty deque raises `IndexError`), reset the tries counter, parse
the reply (a parse failure propagates), then pop the head response handler
and invoke it when not `None`. -/
def _control_recv (msg : List Bytes) (s : ClientState) : Outcome :=
  if s.is_connected then
    let popped :=
      match s.request_timeout_handles with
      | [] => (s, ([] : List Effect))
      | h :: t => ({ s with request_timeout_handles := t }, [Effect.cancelTimeout h])
    let s1 := popped.1
    match s1.request_message_queue with
    | [] => ⟨s1, popped.2, some .indexError⟩
    | _ :: q =>
        let s2 := { s1 with
          request_message_queue := q,
          request_tries_left := s1.request_max_tries }
        match parse_msg msg with
        | .error e => ⟨s2, popped.2, some e⟩
        | .ok tp =>
            match s2.response_handlers with
            | [] => ⟨s2, popped.2, some .indexError⟩
            | hd :: rest =>
                let s3 := { s2 with response_handlers := rest }
                match hd with
                | none => ⟨s3, popped.2, none⟩
                | some h =>
                    let r := runHandler h tp.1 tp.2 s3
                    ⟨r.state, popped.2 ++ [.invokeHandler h] ++ r.effects, r.raised⟩
  else ⟨s, [], none⟩

/-- Embedding of `Client._request_timedout`: decrement the tries counter; on zero, log and
disconnect; otherwise recreate the control socket, replace only the head
timeout with a freshly armed one, and re-transmit every queued message in
order. -/
def _request_timedout (s : ClientState) : Outcome :=
  let s1 := { s with request_tries_left := s.request_tries_left - 1 }
  if s1.request_tries_left = 0 then
    (Outcome.mk s1 [.logError] none).thenRun disconnect
  else
    let s2 := _connect_control_endpoint s1
    let s3 :=
      match s2.request_timeout_handles with
      | [] => s2
      | _ :: t => { s2 with request_timeout_handles := t }
    let s4 := { s3 with
      request_timeout_handles := s3.next_timeout_id :: s3.request_timeout_handles,
      next_timeout_id := s3.next_timeout_id + 1 }
    match s4.control_stream with
    | some st =>
        ⟨s4, .logWarn ::
          s4.request_message_queue.map (fun mp => .sendMultipart st (make_msg mp.1 mp.2)),
          none⟩
    | none => ⟨s4, [.logWarn], some .attributeError⟩

/-- The events that can reach a client: the public calls, an inbound reply on
the control stream, a request-timeout firing, and a heartbeat tick (which
issues `_who_me` only while the periodic callback is running). -/
inductive ClientEvent where
  | connect
  | disconnect
  | ping (cb : Option Nat)
  | enableDepthFrames (kid : Json)
  | recv (msg : List Bytes)
  | timedout
  | heartbeat

/-- One client event step. -/
def clientStep (s : ClientState) : ClientEvent → Outcome
  | .connect => connect s
  | .disconnect => disconnect s
  | .ping cb => ping cb s
  | .enableDepthFrames kid => enable_depth_frames kid s
  | .recv msg => _control_recv msg s
  | .timedout => _request_timedout s
  | .heartbeat => if s.heartbeat_active then _who_me s else ⟨s, [], none⟩

/-- Run a sequence of client events. An exception escaping a callback is
logged by the IO loop (recorded as a `raisedErr` effect) and the loop keeps
running, so later events still execute against the mutated state. -/
def clientRun (s : ClientState) : List ClientEvent → ClientState × List Effect
  | [] => (s, [])
  | e :: tr =>
      let o := clientStep s e
      let effs := o.effects ++
        (match o.raised with | some err => [Effect.raisedErr err] | none => [])
      let rest := clientRun o.state tr
      (rest.1, effs ++ rest.2)

end Client

/-! ### Server browser (`ServerBrowser._Listener` in `server.py`) -/

/-- Embedding of `ServerInfo` from `server.py`: a discovered server's human-readable name
and its control endpoint URI. -/
structure ServerInfo where
  name : String
  endpoint : String

/-- The zeroconf service type constant `_ZC_SERVICE_TYPE`. -/
def _ZC_SERVICE_TYPE : String := "_kinect2._tcp.local."

/-- Python `s.endswith(suffix)`. -/
def pyEndsWith (s suffix : String) : Bool :=
  s.data.drop (s.data.length - suffix.data.length) == suffix.data

namespace ServerBrowser

/-- State of a `ServerBrowser._Listener`: whether the weak reference to the
owning browser still resolves, and the `ServerInfo` records keyed by the
service FQDN. -/
structure ListenerState where
  alive : Bool
  servers : List (String × ServerInfo)

/-- The zeroconf callbacks driving a listener. `addService` carries the
address and port that `zeroconf.getServiceInfo` resolves for the service
(resolution is performed by the external zeroconf library). -/
inductive ZCEvent where
  | addService (type name addr : String) (port : Nat)
  | removeService (type name : String)

/-- Observable actions of the listener: the browser signals it schedules on
the IO loop, the unknown-service warning, and an escaping exception. -/
inductive BEffect where
  | sigAddServer (info : ServerInfo)
  | sigRemoveServer (info : ServerInfo)
  | browserLogWarn
  | browserRaised (e : PyError)

/-- The short name computed by `addService`:
`name[:-(len(_ZC_SERVICE_TYPE)+1)]`. -/
def shortNameOf (name : String) : String :=
  ⟨name.data.take (name.data.length - (_ZC_SERVICE_TYPE.data.length + 1))⟩

/-- The `ServerInfo` built by `addService`: the stripped name and the control
endpoint `tcp://<addr>:<port>`. -/
def infoOf (name addr : String) (port : Nat) : ServerInfo :=
  ⟨shortNameOf name, "tcp://" ++ addr ++ ":" ++ toString port⟩

/-- Embedding of `_Listener.addService`: no-op when the browser is gone or the type is
foreign; assert the name carries the service-type suffix; strip it, build the
`ServerInfo`, store it under the FQDN and emit `on_add_server`. -/
def addService (s : ListenerState) (type name addr : String) (port : Nat) :
    ListenerState × List BEffect :=
  if s.alive then
    if type = _ZC_SERVICE_TYPE then
      if pyEndsWith name ("." ++ _ZC_SERVICE_TYPE) then
        let info : ServerInfo := infoOf name addr port
        ({ s with servers := assocSet s.servers name info }, [.sigAddServer info])
      else (s, [.browserRaised .assertionError])
    else (s, [])
  else (s, [])

/-- Embedding of `_Listener.removeService`: no-op when the browser is gone or the type is
foreign; emit `on_remove_server` with the stored record and delete it, or
warn about an unknown server (`KeyError` swallowed). -/
def removeService (s : ListenerState) (type name : String) :
    ListenerState × List BEffect :=
  if s.alive then
    if type = _ZC_SERVICE_TYPE then
      match assocLookup s.servers name with
      | some info =>
          ({ s with servers := assocErase s.servers name }, [.sigRemoveServer info])
      | none => (s, [.browserLogWarn])
    else (s, [])
  else (s, [])

/-- One zeroconf callback step. -/
def listenerStep (s : ListenerState) : ZCEvent → ListenerState × List BEffect
  | .addService type name addr port => addService s type name addr port
  | .removeService type name => removeService s type name

/-- Run a sequence of zeroconf callbacks, collecting emissions. -/
def listenerRun (s : ListenerState) : List ZCEvent → ListenerState × List BEffect
  | [] => (s, [])
  | e :: tr =>
      let o := listenerStep s e
      let rest := listenerRun o.1 tr
      (rest.1, o.2 ++ rest.2)

/-- The FQDN advertised for a server of short name `n`. -/
def fqdnOf (n : String) : String := ⟨n.data ++ ("." ++ _ZC_SERVICE_TYPE).data⟩

/-- The add/remove emissions concerning the server of short name `n`, in
order (`true` marking an add). -/
def emissionsFor (n : String) : List BEffect → List (Bool × ServerInfo)
  | [] => []
  | .sigAddServer i :: rest =>
      if i.name = n then (true, i) :: emissionsFor n rest else emissionsFor n rest
  | .sigRemoveServer i :: rest =>
      if i.name = n then (false, i) :: emissionsFor n rest else emissionsFor n rest
  | _ :: rest => emissionsFor n rest

/-- Per-name alternation of emissions: from a closed state adds and removes
strictly alternate, and each remove carries the same `ServerInfo` as the add
it closes; the first component records the currently open add, if any. -/
inductive AltSeq : Option ServerInfo → List (Bool × ServerInfo) → Prop
  | nil {o} : AltSeq o []
  | add {i l} : AltSeq (some i) l → AltSeq none ((true, i) :: l)
  | remove {i l} : AltSeq none l → AltSeq (some i) ((false, i) :: l)

/-- Callback sequences the zeroconf library can deliver: for the Kinect
service type it never announces a name that is currently announced (a
removal precedes any re-announcement of the same name). -/
inductive ValidZCTrace : ListenerState → List ZCEvent → Prop
  | nil {s} : ValidZCTrace s []
  | add {s type name addr port tr} :
      (type = _ZC_SERVICE_TYPE → assocLookup s.servers name = none) →
      ValidZCTrace (listenerStep s (.addService type name addr port)).1 tr →
      ValidZCTrace s (.addService type name addr port :: tr)
  | remove {s type name tr} :
      ValidZCTrace (listenerStep s (.removeService type name)).1 tr →
      ValidZCTrace s (.removeService type name :: tr)

end ServerBrowser

/-! ### Theorems -/

theorem MessageType.ofByte_value (t : MessageType) :
    MessageType.ofByte (.tagByte t.value) = .ok t := by
  cases t <;> rfl

/-- C4: for every message type and every JSON payload, parsing the encoding
round-trips, and a `None` payload gives a single-part message that also
round-trips. -/
theorem parse_msg_make_msg (t : MessageType) (p : Option Json) :
    parse_msg (make_msg t p) = .ok (t, p) ∧
    ((make_msg t none).length = 1 ∧ parse_msg (make_msg t none) = .ok (t, none)) := by
  refine ⟨?_, rfl, ?_⟩ <;> cases p <;>
    simp [make_msg, parse_msg, MessageType.ofByte_value, json_loads, Bind.bind, Except.bind,
      pure, Except.pure]

/-- C3: for every control message received by a running server, exactly one
reply is sent: `ping` yields `pong` with no payload, `who` yields `me` with
the current identity payload, any other well-formed message yields an error
reply with code 400 and a reason string, and a malformed message also yields
a code-400 error reply rather than being dropped. -/
theorem server_control_one_reply (s : ServerState) (msg : List Bytes) :
    (s.control_recv msg).length = 1 ∧
    (∀ p, parse_msg msg = .ok (.ping, p) →
      s.control_recv msg = [make_msg .pong none]) ∧
    (∀ p, parse_msg msg = .ok (.who, p) →
      s.control_recv msg = [make_msg .me (some s.current_me)]) ∧
    (∀ t p, parse_msg msg = .ok (t, p) → t ≠ .ping → t ≠ .who →
      ∃ reason, s.control_recv msg =
        [make_msg .error (some (.obj [("code", .num 400), ("reason", .str reason)]))]) ∧
    (∀ e, parse_msg msg = .error e →
      ∃ reason, s.control_recv msg =
        [make_msg .error (some (.obj [("code", .num 400), ("reason", .str reason)]))]) := by
  refine ⟨?_, ?_, ?_, ?_, ?_⟩
  · cases h : parse_msg msg <;> simp [ServerState.control_recv, h]
  · intro p hp; simp [ServerState.control_recv, hp, ServerState.handle_control]
  · intro p hp; simp [ServerState.control_recv, hp, ServerState.handle_control]
  · intro t p hp h1 h2
    cases t with
    | ping => exact absurd rfl h1
    | who => exact absurd rfl h2
    | error => exact ⟨"Unknown message type \x22MessageType.error\x22",
        by simp [ServerState.control_recv, hp, ServerState.handle_control, MessageType.pyStr]⟩
    | pong => exact ⟨"Unknown message type \x22MessageType.pong\x22",
        by simp [ServerState.control_recv, hp, ServerState.handle_control, MessageType.pyStr]⟩
    | me => exact ⟨"Unknown message type \x22MessageType.me\x22",
        by simp [ServerState.control_recv, hp, ServerState.handle_control, MessageType.pyStr]⟩
  · intro e he
    exact ⟨e.text, by simp [ServerState.control_recv, he]⟩

theorem server_control_one_reply_witness :
    parse_msg [Bytes.tagByte 1] = .ok (.ping, none) ∧
    (ServerState.mk "server" [] []).control_recv [Bytes.tagByte 1] =
      [make_msg .pong none] :=
  ⟨rfl, (server_control_one_reply (ServerState.mk "server" [] []) [Bytes.tagByte 1]).2.1
    none rfl⟩

/-- C10: a compressed frame from an unregistered kinect id is not merely
logged and ignored: the handler logs a warning and then raises
`UnboundLocalError` on the unbound `record` variable; when the id is
registered (with a depth stream, as `add_kinect` always installs) the handler
completes without error, sending and flushing the frame. -/
theorem on_compressed_frame_unbound_record (s : ServerState) (kid : String)
    (frame : List Nat) :
    (assocLookup s.kinects kid = none →
      (s.on_compressed_frame kid frame).raised = some .unboundLocalError ∧
      (s.on_compressed_frame kid frame).effects = [.warnLog]) ∧
    (∀ record st, assocLookup s.kinects kid = some record →
      assocLookup record.streams .depth = some st →
      (s.on_compressed_frame kid frame).raised = none ∧
      (s.on_compressed_frame kid frame).effects =
        [.streamSend st frame, .streamFlush st]) := by
  constructor
  · intro h; simp [ServerState.on_compressed_frame, h]
  · intro record st h1 h2; simp [ServerState.on_compressed_frame, h1, h2]

theorem on_compressed_frame_unbound_record_witness :
    assocLookup (ServerState.mk "server" [] []).kinects "K1" = none ∧
    ((ServerState.mk "server" [] []).on_compressed_frame "K1" [1, 2]).raised =
      some .unboundLocalError :=
  ⟨rfl, ((on_compressed_frame_unbound_record (ServerState.mk "server" [] []) "K1"
    [1, 2]).1 rfl).1⟩

namespace DepthFrameCompressor

theorem poolRun_invariant {m : Int} :
    ∀ (pre suf : List PoolEvent) (s : CompressorState),
      ValidPoolTrace m s (pre ++ suf) → 0 ≤ s.n_in_flight → s.n_in_flight ≤ m →
      0 ≤ (poolRun m s pre).1.n_in_flight ∧ (poolRun m s pre).1.n_in_flight ≤ m := by
  intro pre
  induction pre with
  | nil => intro suf s _ h0 h1; exact ⟨h0, h1⟩
  | cons e pre ih =>
      intro suf s hv h0 h1
      cases e with
      | depthFrame =>
          cases hv with
          | frame hv' =>
              simp only [poolRun, poolStep]
              refine ih suf _ hv' ?_ ?_ <;> unfold _on_depth_frame <;>
                split <;> simp <;> omega
      | completion =>
          cases hv with
          | done hpos hv' =>
              simp only [poolRun, poolStep]
              refine ih suf _ hv' ?_ ?_ <;> unfold _on_compressed_frame <;> simp <;> omega

end DepthFrameCompressor


/-- C5: on every pool-producible event sequence the in-flight count stays
between `0` and `_MAX_IN_FLIGHT` at every intermediate point; the default
limit is `cpu_count + 1`; and a frame arriving when the count equals the
limit is dropped without submission, increments the drop counter, and logs a
warning exactly when the new drop count is a multiple of 10. -/
theorem compressor_in_flight_bounded (cpuCount : Nat)
    (tr : List DepthFrameCompressor.PoolEvent)
    (hv : DepthFrameCompressor.ValidPoolTrace
      (DepthFrameCompressor._MAX_IN_FLIGHT cpuCount)
      DepthFrameCompressor.initState tr) :
    (∀ pre suf, tr = pre ++ suf →
      0 ≤ (DepthFrameCompressor.poolRun (DepthFrameCompressor._MAX_IN_FLIGHT cpuCount)
          DepthFrameCompressor.initState pre).1.n_in_flight ∧
      (DepthFrameCompressor.poolRun (DepthFrameCompressor._MAX_IN_FLIGHT cpuCount)
          DepthFrameCompressor.initState pre).1.n_in_flight ≤
        (DepthFrameCompressor._MAX_IN_FLIGHT cpuCount : Int)) ∧
    DepthFrameCompressor._MAX_IN_FLIGHT cpuCount = cpuCount + 1 ∧
    (∀ s : CompressorState,
      s.n_in_flight = (DepthFrameCompressor._MAX_IN_FLIGHT cpuCount : Int) →
      (DepthFrameCompressor._on_depth_frame
          (DepthFrameCompressor._MAX_IN_FLIGHT cpuCount) s).1.n_in_flight =
        s.n_in_flight ∧
      (DepthFrameCompressor._on_depth_frame
          (DepthFrameCompressor._MAX_IN_FLIGHT cpuCount) s).1.n_dropped =
        s.n_dropped + 1 ∧
      DepthFrameCompressor.PEffect.submit ∉
        (DepthFrameCompressor._on_depth_frame
          (DepthFrameCompressor._MAX_IN_FLIGHT cpuCount) s).2 ∧
      (DepthFrameCompressor._on_depth_frame
          (DepthFrameCompressor._MAX_IN_FLIGHT cpuCount) s).2 =
        (if (s.n_dropped + 1) % 10 = 0
          then [DepthFrameCompressor.PEffect.warnDropped (s.n_dropped + 1)] else [])) := by
  refine ⟨?_, rfl, ?_⟩
  · intro pre suf hsplit
    exact DepthFrameCompressor.poolRun_invariant pre suf _ (hsplit ▸ hv)
      (by simp [DepthFrameCompressor.initState])
      (by simp [DepthFrameCompressor.initState])
  · intro s hs
    have hnot : ¬ s.n_in_flight < (DepthFrameCompressor._MAX_IN_FLIGHT cpuCount : Int) := by
      omega
    unfold DepthFrameCompressor._on_depth_frame
    rw [if_neg hnot]
    refine ⟨rfl, rfl, ?_, rfl⟩
    by_cases hd : (s.n_dropped + 1) % 10 = 0 <;> simp [hd]

theorem compressor_in_flight_bounded_witness :
    0 ≤ (DepthFrameCompressor.poolRun (DepthFrameCompressor._MAX_IN_FLIGHT 1)
        DepthFrameCompressor.initState
        [.depthFrame, .depthFrame, .depthFrame]).1.n_in_flight ∧
    (DepthFrameCompressor.poolRun (DepthFrameCompressor._MAX_IN_FLIGHT 1)
        DepthFrameCompressor.initState
        [.depthFrame, .depthFrame, .depthFrame]).1.n_in_flight ≤
      (DepthFrameCompressor._MAX_IN_FLIGHT 1 : Int) :=
  (compressor_in_flight_bounded 1 [.depthFrame, .depthFrame, .depthFrame]
    (.frame (.frame (.frame .nil)))).1
    [.depthFrame, .depthFrame, .depthFrame] [] rfl

/-- C9: the compression function hands the encoder the height-by-width 8-bit
raster obtained by right-shifting every 16-bit sample by 4 bits and
truncating to 8 bits: entry `(r, c)` of the raster is
`(data[r * width + c] >>> 4) % 256`. -/
theorem compress_depth_frame_shift (jpeg_encode : List (List Nat) → List Nat)
    (f : DepthFrame) (hlen : f.data.length = f.shape.1 * f.shape.2) :
    _compress_depth_frame jpeg_encode f = jpeg_encode (depthRaster f) ∧
    (depthRaster f).length = f.shape.2 ∧
    (∀ r, r < f.shape.2 → (depthRaster f)[r]?.map List.length = some f.shape.1) ∧
    (∀ r c, r < f.shape.2 → c < f.shape.1 →
      ((depthRaster f)[r]?.bind fun row => row[c]?) =
        f.data[r * f.shape.1 + c]?.map fun v => (v >>> 4) % 256) := by
  have key : ∀ r, r < f.shape.2 → f.shape.1 ≤ f.data.length - r * f.shape.1 := by
    intro r hr
    rw [hlen, Nat.mul_comm]
    have h1 : (r + 1) * f.shape.1 ≤ f.shape.2 * f.shape.1 :=
      Nat.mul_le_mul_right _ (by omega)
    rw [Nat.add_mul, Nat.one_mul] at h1
    exact Nat.le_sub_of_add_le (by rw [Nat.add_comm]; exact h1)
  have hrow : ∀ r, r < f.shape.2 → (depthRaster f)[r]? =
      some (((f.data.drop (r * f.shape.1)).take f.shape.1).map fun v =>
        (v >>> 4) % 256) := by
    intro r hr
    unfold depthRaster
    rw [List.getElem?_map, List.getElem?_range hr, Option.map_some']
  refine ⟨?_, ?_, ?_, ?_⟩
  · show jpeg_encode (List.map _ (List.map _ (List.range f.shape.2))) = _
    rw [List.map_map]
    rfl
  · simp [depthRaster]
  · intro r hr
    rw [hrow r hr, Option.map_some']
    have := key r hr
    simp [List.length_take, List.length_drop]
    omega
  · intro r c hr hc
    rw [hrow r hr, Option.some_bind, List.getElem?_map, List.getElem?_take]
    rw [if_pos hc, List.getElem?_drop]

theorem compress_depth_frame_shift_witness :
    ((depthRaster ⟨[4096, 255, 4080, 18], (2, 2)⟩)[1]?.bind fun row => row[0]?) =
      (([4096, 255, 4080, 18] : List Nat)[1 * 2 + 0]?.map fun v => (v >>> 4) % 256) :=
  (compress_depth_frame_shift (fun _ => []) ⟨[4096, 255, 4080, 18], (2, 2)⟩ rfl).2.2.2 1 0
    (by decide) (by decide)


theorem got_me_preserves (t : MessageType) (p : Option Json) (s : ClientState) :
    (Client.got_me t p s).state.response_handlers = s.response_handlers ∧
    (Client.got_me t p s).state.is_connected = s.is_connected ∧
    ((Client.got_me t p s).effects.countP Effect.isSigDisconnect) = 0 := by
  unfold Client.got_me
  repeat' split
  all_goals simp [List.countP_append, List.countP_map]
  all_goals repeat' split
  all_goals simp [List.countP_append, List.countP_map, List.countP_eq_zero,
    Effect.isSigDisconnect]
  all_goals rintro a (⟨i, _, rfl⟩ | ⟨i, _, rfl⟩) <;> rfl

theorem runHandler_preserves (h : Handler) (t : MessageType) (p : Option Json)
    (s : ClientState) :
    (Client.runHandler h t p s).state.response_handlers = s.response_handlers ∧
    (Client.runHandler h t p s).state.is_connected = s.is_connected ∧
    ((Client.runHandler h t p s).effects.countP Effect.isSigDisconnect) = 0 := by
  cases h with
  | pong cb => cases cb <;> exact ⟨rfl, rfl, rfl⟩
  | got_me => exact got_me_preserves t p s

/-- C1 (amended): each `_control_send` appends its response handler at the
tail; each reply received while connected pops the head of the
response-handler queue and invokes it, so within a session handlers are
invoked in request-send order; but `connect()` clears only the request
message and timeout queues and resets the tries counter, appending the
initial `who` handler to whatever response handlers were already queued, so
handler-queue entries from a previous session survive a
`disconnect()`/`connect()` cycle. -/
theorem client_fifo_pop_and_connect (s : ClientState) (msg : List Bytes)
    (t : MessageType) (p : Option Json) (m : MessageType × Option Json)
    (mq : List (MessageType × Option Json)) (hd : Option Handler)
    (hs : List (Option Handler)) (cb : Option Handler) :
    ((Client._control_send t p cb s).state.response_handlers
        = s.response_handlers ++ [cb]) ∧
    (s.is_connected = true → s.request_message_queue = m :: mq →
      parse_msg msg = .ok (t, p) → s.response_handlers = hd :: hs →
      (Client._control_recv msg s).state.response_handlers = hs ∧
      (∀ h, hd = some h →
        Effect.invokeHandler h ∈ (Client._control_recv msg s).effects)) ∧
    (s.is_connected = false →
      (Client.connect s).state.request_message_queue = [(.who, none)] ∧
      (Client.connect s).state.request_timeout_handles = [s.next_timeout_id] ∧
      (Client.connect s).state.request_tries_left = s.request_max_tries ∧
      (Client.connect s).state.response_handlers
        = s.response_handlers ++ [some .got_me]) := by
  refine ⟨?_, ?_, ?_⟩
  · cases hcs : s.control_stream <;> simp [Client._control_send, hcs]
  · intro hconn hq hparse hh
    unfold Client._control_recv
    cases hth : s.request_timeout_handles <;>
      cases hd <;>
      simp [hconn, hq, hparse, hh, hth, runHandler_preserves]
  · intro hconn
    simp [Client.connect, hconn, Client._who_me, Client._control_send,
      Client._connect_control_endpoint, Outcome.thenRun]

theorem client_fifo_pop_and_connect_witness :
    (Client.init (.str "tcp://h")).is_connected = false ∧
    (Client.connect (Client.init (.str "tcp://h"))).state.request_message_queue
      = [(.who, none)] :=
  ⟨rfl, ((client_fifo_pop_and_connect (Client.init (.str "tcp://h")) [] .who none
      (.who, none) [] none [] none).2.2 rfl).1⟩

/-- C1 counterexample: after a `connect`, `ping`, `disconnect`, `connect`
sequence the response-handler queue still holds the first session's `got_me`
and `pong` handlers in front of the new session's `got_me`, so the in-flight
queues are not all clear of entries from the previous session and the next
replies are matched against stale handlers. -/
theorem client_connect_retains_stale_handlers :
    ((Client.clientRun (Client.init (.str "tcp://h"))
        [.connect, .ping none, .disconnect, .connect]).1).response_handlers
      = [some .got_me, some (.pong none), some .got_me] := rfl

theorem countP_sigDisconnect_map {α : Type} (f : α → Effect) (l : List α)
    (hf : ∀ x, Effect.isSigDisconnect (f x) = false) :
    ((l.map f).countP Effect.isSigDisconnect) = 0 := by
  induction l with
  | nil => rfl
  | cons a l ih => simp [List.countP_cons, hf, ih]

theorem timedout_retry (s : ClientState) (h : s.request_tries_left - 1 ≠ 0) :
    (Client._request_timedout s).state.is_connected = s.is_connected ∧
    (Client._request_timedout s).state.request_tries_left = s.request_tries_left - 1 ∧
    (Client._request_timedout s).state.control_stream = some s.next_stream_id ∧
    (Client._request_timedout s).state.request_timeout_handles
      = s.next_timeout_id :: s.request_timeout_handles.tail ∧
    (Client._request_timedout s).state.request_message_queue
      = s.request_message_queue ∧
    (Client._request_timedout s).effects
      = .logWarn :: s.request_message_queue.map
          (fun mp => .sendMultipart s.next_stream_id (make_msg mp.1 mp.2)) ∧
    (Client._request_timedout s).raised = none := by
  unfold Client._request_timedout
  rw [if_neg h]
  cases hth : s.request_timeout_handles <;>
    simp [Client._connect_control_endpoint, hth]

theorem timedout_exhaust (s : ClientState) (hconn : s.is_connected = true)
    (h : s.request_tries_left - 1 = 0) :
    (Client._request_timedout s).state.is_connected = false ∧
    (Client._request_timedout s).effects
      = .logError ::
          (s.request_timeout_handles.map Effect.cancelTimeout ++ [.sigDisconnect]) ∧
    (Client._request_timedout s).raised = none := by
  unfold Client._request_timedout
  rw [if_pos h]
  simp [Outcome.thenRun, Client.disconnect, hconn]

theorem timedout_iter : ∀ (n : Nat), 1 ≤ n → ∀ s : ClientState,
    s.is_connected = true → s.request_tries_left = (n : Int) →
    (Client.clientRun s (List.replicate n .timedout)).1.is_connected = false ∧
    ((Client.clientRun s (List.replicate n .timedout)).2.countP
        Effect.isSigDisconnect) = 1 := by
  intro n
  induction n with
  | zero => omega
  | succ m ih =>
      intro _ s hconn htries
      rcases Nat.eq_zero_or_pos m with hm | hm
      · subst hm
        have hz : s.request_tries_left - 1 = 0 := by rw [htries]; rfl
        obtain ⟨hc, he, hr⟩ := timedout_exhaust s hconn hz
        simp only [List.replicate, Client.clientRun, Client.clientStep, hr, he, hc]
        refine ⟨by trivial, ?_⟩
        simp [List.countP_cons, List.countP_append, Effect.isSigDisconnect,
          countP_sigDisconnect_map Effect.cancelTimeout s.request_timeout_handles
            (fun _ => rfl)]
      · have hnz : s.request_tries_left - 1 ≠ 0 := by
          rw [htries]; omega
        obtain ⟨hc, ht', _, _, _, he, hr⟩ := timedout_retry s hnz
        have htries' : (Client._request_timedout s).state.request_tries_left
            = (m : Int) := by rw [ht', htries]; push_cast; ring
        have hconn' : (Client._request_timedout s).state.is_connected = true := by
          rw [hc, hconn]
        obtain ⟨ihc, ihcount⟩ := ih hm (Client._request_timedout s).state hconn' htries'
        simp only [List.replicate, Client.clientRun, Client.clientStep, hr]
        refine ⟨ihc, ?_⟩
        rw [List.countP_append, ihcount, he]
        simp [List.countP_cons, Effect.isSigDisconnect,
          countP_sigDisconnect_map
            (fun mp : MessageType × Option Json =>
              Effect.sendMultipart s.next_stream_id (make_msg mp.1 mp.2))
            s.request_message_queue (fun _ => rfl)]

/-- C2: a head-request timeout on a connected client decrements the tries
counter; when it reaches zero the client disconnects (emitting
`on_disconnect`), and otherwise it recreates the request socket, re-arms
only the head timeout (the tail handles are kept as they are) and
re-transmits every queued message in order; consequently `max_tries`
consecutive timeouts with no reply leave the client disconnected with
`on_disconnect` emitted exactly once. -/
theorem client_timeout_retry_disconnect :
    (∀ s : ClientState, s.is_connected = true → s.request_tries_left - 1 ≠ 0 →
      (Client._request_timedout s).state.is_connected = true ∧
      (Client._request_timedout s).state.request_tries_left
        = s.request_tries_left - 1 ∧
      (Client._request_timedout s).state.control_stream = some s.next_stream_id ∧
      (Client._request_timedout s).state.request_timeout_handles
        = s.next_timeout_id :: s.request_timeout_handles.tail ∧
      (Client._request_timedout s).effects
        = .logWarn :: s.request_message_queue.map
            (fun mp => .sendMultipart s.next_stream_id (make_msg mp.1 mp.2))) ∧
    (∀ s : ClientState, s.is_connected = true → s.request_tries_left - 1 = 0 →
      (Client._request_timedout s).state.is_connected = false ∧
      ((Client._request_timedout s).effects.countP Effect.isSigDisconnect) = 1) ∧
    (∀ (n : Nat) (s : ClientState), 1 ≤ n → s.is_connected = true →
      s.request_tries_left = (n : Int) →
      (Client.clientRun s (List.replicate n .timedout)).1.is_connected = false ∧
      ((Client.clientRun s (List.replicate n .timedout)).2.countP
          Effect.isSigDisconnect) = 1) := by
  refine ⟨?_, ?_, fun n s h1 hc ht => timedout_iter n h1 s hc ht⟩
  · intro s hconn h
    obtain ⟨hc, h2, h3, h4, _, h6, _⟩ := timedout_retry s h
    exact ⟨hc.trans hconn, h2, h3, h4, h6⟩
  · intro s hconn h
    obtain ⟨hc, he, _⟩ := timedout_exhaust s hconn h
    refine ⟨hc, ?_⟩
    rw [he]
    simp [List.countP_cons, List.countP_append, Effect.isSigDisconnect,
      countP_sigDisconnect_map Effect.cancelTimeout s.request_timeout_handles
        (fun _ => rfl)]

theorem client_timeout_retry_disconnect_witness :
    ((Client.clientRun (Client.clientRun (Client.init (.str "tcp://h"))
        [.connect]).1 (List.replicate 3 .timedout)).1.is_connected = false ∧
      (((Client.clientRun (Client.clientRun (Client.init (.str "tcp://h"))
        [.connect]).1 (List.replicate 3 .timedout)).2.countP
          Effect.isSigDisconnect) = 1)) :=
  client_timeout_retry_disconnect.2.2 3
    (Client.clientRun (Client.init (.str "tcp://h")) [.connect]).1
    (by decide) rfl (by decide)

/-- C6 (amended): a reply whose tag byte is outside the five defined tags is
not ignored: `parse_msg` raises `ValueError`, which escapes the receive path
after the queue pops (leaving the handler queue untouched and the client
connected, with no disconnect emitted); and a `me` reply whose payload
version is not 1 does not disconnect the client: `got_me` raises
`ProtocolError` leaving the state unchanged. -/
theorem client_bad_reply_behaviour (s : ClientState) (b : Nat) (pl v : Json)
    (m : MessageType × Option Json) (mq : List (MessageType × Option Json)) :
    (s.is_connected = true → s.request_message_queue = m :: mq → 5 ≤ b →
      (Client._control_recv [.tagByte b] s).raised
        = some (.valueError "not a valid MessageType") ∧
      (Client._control_recv [.tagByte b] s).state.is_connected = true ∧
      (Client._control_recv [.tagByte b] s).state.response_handlers
        = s.response_handlers ∧
      ((Client._control_recv [.tagByte b] s).effects.countP
          Effect.isSigDisconnect) = 0) ∧
    (pyContains pl "version" = .ok true → pyGetItem pl "version" = .ok v →
      pyEqOne v = false →
      Client.got_me .me (some pl) s
        = ⟨s, [.logError], some (.protocolError "unknown server protocol")⟩) := by
  constructor
  · intro hconn hq hb
    have hofb : MessageType.ofByte (.tagByte b)
        = .error (.valueError "not a valid MessageType") := by
      obtain _|_|_|_|_|b := b
      iterate 5 omega
      rfl
    have hparse : parse_msg [.tagByte b]
        = .error (.valueError "not a valid MessageType") := by
      simp [parse_msg, hofb, Bind.bind, Except.bind]
    unfold Client._control_recv
    cases hth : s.request_timeout_handles <;>
      simp [hconn, hq, hth, hparse, Effect.isSigDisconnect, List.countP_cons]
  · intro h1 h2 h3
    unfold Client.got_me
    simp [h1, h2, h3]

theorem client_bad_reply_behaviour_witness :
    Client.got_me .me (some (.obj [("version", .num 2)]))
        (Client.init (.str "tcp://h"))
      = ⟨Client.init (.str "tcp://h"), [.logError],
          some (.protocolError "unknown server protocol")⟩ :=
  (client_bad_reply_behaviour (Client.init (.str "tcp://h")) 9
    (.obj [("version", .num 2)]) (.num 2) (.who, none) []).2 rfl rfl rfl

/-- C6 counterexample: at a freshly connected client, a reply with the
undefined tag byte 9 raises `ValueError` out of the receive path instead of
being ignored, and a `me` reply with version 2 raises `ProtocolError` while
the client stays connected and no `on_disconnect` is emitted. -/
theorem client_bad_reply_counterexample :
    (Client._control_recv [.tagByte 9]
        (Client.clientRun (Client.init (.str "tcp://h")) [.connect]).1).raised
      = some (.valueError "not a valid MessageType") ∧
    (Client._control_recv (make_msg .me (some (.obj [("version", .num 2)])))
        (Client.clientRun (Client.init (.str "tcp://h")) [.connect]).1).raised
      = some (.protocolError "unknown server protocol") ∧
    (Client._control_recv (make_msg .me (some (.obj [("version", .num 2)])))
        (Client.clientRun (Client.init (.str "tcp://h")) [.connect]).1).state.is_connected
      = true ∧
    ((Client._control_recv (make_msg .me (some (.obj [("version", .num 2)])))
        (Client.clientRun (Client.init (.str "tcp://h")) [.connect]).1).effects.countP
        Effect.isSigDisconnect) = 0 :=
  ⟨rfl, rfl, rfl, rfl⟩

/-- C7 (amended): `ping` on a disconnected client raises `RuntimeError`
leaving the state unchanged with no effects, and `enable_depth_frames` with
an unknown kinect id raises `ValueError` in every state leaving the state
unchanged; but `enable_depth_frames` itself performs no connectedness
check. -/
theorem client_fail_fast (s : ClientState) (cb : Option Nat) (kid : Json) :
    (s.is_connected = false →
      Client.ping cb s = ⟨s, [], some (.runtimeError "Client is not connected")⟩) ∧
    (assocLookup s.kinect_records kid = none →
      Client.enable_depth_frames kid s
        = ⟨s, [],
            some (.valueError "Kinect id does not correspond to a connected device")⟩) := by
  constructor
  · intro hconn; simp [Client.ping, hconn]
  · intro hl; simp [Client.enable_depth_frames, hl]

theorem client_fail_fast_witness :
    Client.ping none (Client.init (.str "tcp://h"))
      = ⟨Client.init (.str "tcp://h"), [],
          some (.runtimeError "Client is not connected")⟩ :=
  (client_fail_fast (Client.init (.str "tcp://h")) none (.str "K1")).1 rfl

/-- C7 counterexample: on a disconnected client that still holds a kinect
record from an earlier session, `enable_depth_frames` does not fail fast: it
completes without raising and mutates the record's stream table. -/
theorem client_enable_depth_disconnected_counterexample :
    ({ Client.init (.str "tcp://h") with
        kinect_records := [(.str "K1",
          ⟨[(.depth, .str "tcp://depth")], [(.depth, none)]⟩)] }
      : ClientState).is_connected = false ∧
    (Client.enable_depth_frames (.str "K1")
      { Client.init (.str "tcp://h") with
        kinect_records := [(.str "K1",
          ⟨[(.depth, .str "tcp://depth")], [(.depth, none)]⟩)] }).raised = none ∧
    (Client.enable_depth_frames (.str "K1")
      { Client.init (.str "tcp://h") with
        kinect_records := [(.str "K1",
          ⟨[(.depth, .str "tcp://depth")], [(.depth, none)]⟩)] }).state.kinect_records
      = [(.str "K1", ⟨[(.depth, .str "tcp://depth")], [(.depth, some 0)]⟩)] :=
  ⟨rfl, rfl, rfl⟩


section AssocLemmas

variable {α β : Type} [BEq α] [LawfulBEq α]

theorem assocLookup_assocSet_self (l : List (α × β)) (k : α) (v : β) :
    assocLookup (assocSet l k v) k = some v := by
  induction l with
  | nil => simp [assocSet, assocLookup]
  | cons p l ih =>
      obtain ⟨a, b⟩ := p
      by_cases h : a = k <;> simp [assocSet, assocLookup, h, ih]

theorem assocLookup_assocSet_ne (l : List (α × β)) (k k' : α) (v : β)
    (h : k' ≠ k) :
    assocLookup (assocSet l k v) k' = assocLookup l k' := by
  induction l with
  | nil =>
      have hk : ¬ (k = k') := fun he => h he.symm
      simp [assocSet, assocLookup, hk]
  | cons p l ih =>
      obtain ⟨a, b⟩ := p
      by_cases ha : a = k
      · subst ha
        have hk : ¬ (a = k') := fun he => h he.symm
        simp [assocSet, assocLookup, hk]
      · simp [assocSet, assocLookup, ha, ih]

theorem mem_assocSet (l : List (α × β)) (k : α) (v : β) (p : α × β)
    (h : p ∈ assocSet l k v) : p ∈ l ∨ p = (k, v) := by
  induction l with
  | nil => simpa [assocSet] using h
  | cons q l ih =>
      obtain ⟨a, b⟩ := q
      by_cases ha : a = k
      · subst ha
        rw [show assocSet ((a, b) :: l) a v = (a, v) :: l by simp [assocSet]] at h
        rcases List.mem_cons.mp h with h' | h'
        · right; rw [h']
        · left; exact List.mem_cons_of_mem _ h'
      · rw [show assocSet ((a, b) :: l) k v = (a, b) :: assocSet l k v by
          simp [assocSet, ha]] at h
        rcases List.mem_cons.mp h with h' | h'
        · left; exact h' ▸ List.mem_cons_self _ _
        · rcases ih h' with h2 | h2
          · left; exact List.mem_cons_of_mem _ h2
          · right; exact h2

theorem keys_assocSet_subset (l : List (α × β)) (k k' : α) (v : β)
    (h : k' ∈ (assocSet l k v).map Prod.fst) :
    k' ∈ l.map Prod.fst ∨ k' = k := by
  simp only [List.mem_map] at h
  obtain ⟨p, hp, hk⟩ := h
  rcases mem_assocSet l k v p hp with h' | h'
  · left; exact List.mem_map.mpr ⟨p, h', hk⟩
  · right; rw [← hk, h']

theorem keys_nodup_assocSet (l : List (α × β)) (k : α) (v : β)
    (h : (l.map Prod.fst).Nodup) : ((assocSet l k v).map Prod.fst).Nodup := by
  induction l with
  | nil => simp [assocSet]
  | cons p l ih =>
      obtain ⟨a, b⟩ := p
      rw [List.map_cons, List.nodup_cons] at h
      by_cases ha : a = k
      · subst ha
        rw [show assocSet ((a, b) :: l) a v = (a, v) :: l by simp [assocSet]]
        rw [List.map_cons, List.nodup_cons]
        exact h
      · rw [show assocSet ((a, b) :: l) k v = (a, b) :: assocSet l k v by
          simp [assocSet, ha]]
        rw [List.map_cons, List.nodup_cons]
        refine ⟨?_, ih h.2⟩
        intro hmem
        rcases keys_assocSet_subset l k a v hmem with h' | h'
        · exact h.1 h'
        · exact ha h'

theorem assocErase_sublist (l : List (α × β)) (k : α) :
    List.Sublist (assocErase l k) l := by
  induction l with
  | nil => simp [assocErase]
  | cons p l ih =>
      obtain ⟨a, b⟩ := p
      by_cases ha : a = k
      · rw [show assocErase ((a, b) :: l) k = l by simp [assocErase, ha]]
        exact List.sublist_cons_self (a, b) l
      · rw [show assocErase ((a, b) :: l) k = (a, b) :: assocErase l k by
          simp [assocErase, ha]]
        exact List.Sublist.cons₂ (a, b) ih

theorem keys_nodup_assocErase (l : List (α × β)) (k : α)
    (h : (l.map Prod.fst).Nodup) : ((assocErase l k).map Prod.fst).Nodup :=
  ((assocErase_sublist l k).map Prod.fst).nodup h

theorem mem_assocErase (l : List (α × β)) (k : α) (p : α × β)
    (h : p ∈ assocErase l k) : p ∈ l :=
  (assocErase_sublist l k).subset h

theorem assocLookup_eq_none_of_not_mem (l : List (α × β)) (k : α)
    (h : k ∉ l.map Prod.fst) : assocLookup l k = none := by
  induction l with
  | nil => rfl
  | cons p l ih =>
      obtain ⟨a, b⟩ := p
      rw [List.map_cons, List.mem_cons] at h
      push_neg at h
      have hne : ¬ a = k := fun he => h.1 he.symm
      simp [assocLookup, hne, ih h.2]

theorem assocLookup_assocErase_self (l : List (α × β)) (k : α)
    (h : (l.map Prod.fst).Nodup) : assocLookup (assocErase l k) k = none := by
  induction l with
  | nil => rfl
  | cons p l ih =>
      obtain ⟨a, b⟩ := p
      rw [List.map_cons, List.nodup_cons] at h
      by_cases ha : a = k
      · subst ha
        rw [show assocErase ((a, b) :: l) a = l by simp [assocErase]]
        exact assocLookup_eq_none_of_not_mem l a h.1
      · rw [show assocErase ((a, b) :: l) k = (a, b) :: assocErase l k by
          simp [assocErase, ha]]
        simp [assocLookup, ha, ih h.2]

theorem assocLookup_assocErase_ne (l : List (α × β)) (k k' : α) (h : k' ≠ k) :
    assocLookup (assocErase l k) k' = assocLookup l k' := by
  induction l with
  | nil => rfl
  | cons p l ih =>
      obtain ⟨a, b⟩ := p
      by_cases ha : a = k
      · subst ha
        rw [show assocErase ((a, b) :: l) a = l by simp [assocErase]]
        have hne : ¬ a = k' := fun he => h (he ▸ rfl)
        simp [assocLookup, hne]
      · rw [show assocErase ((a, b) :: l) k = (a, b) :: assocErase l k by
          simp [assocErase, ha]]
        simp [assocLookup, ih]

theorem assocLookup_mem (l : List (α × β)) (k : α) (v : β)
    (h : assocLookup l k = some v) : (k, v) ∈ l := by
  induction l with
  | nil => simp [assocLookup] at h
  | cons p l ih =>
      obtain ⟨a, b⟩ := p
      by_cases ha : a = k
      · subst ha
        simp [assocLookup] at h
        simp [h]
      · simp [assocLookup, ha] at h
        simp [ih h]

end AssocLemmas

theorem suffix_data_length :
    ("." ++ _ZC_SERVICE_TYPE).data.length = _ZC_SERVICE_TYPE.data.length + 1 := by
  rw [String.data_append, List.length_append]
  have h1 : (".").data.length = 1 := rfl
  omega

theorem strip_append (s : String)
    (h : pyEndsWith s ("." ++ _ZC_SERVICE_TYPE) = true) :
    s.data.take (s.data.length - (_ZC_SERVICE_TYPE.data.length + 1))
      ++ ("." ++ _ZC_SERVICE_TYPE).data = s.data := by
  have hd : s.data.drop (s.data.length - ("." ++ _ZC_SERVICE_TYPE).data.length)
      = ("." ++ _ZC_SERVICE_TYPE).data := eq_of_beq h
  rw [suffix_data_length] at hd
  rw [← hd]
  exact List.take_append_drop _ _

theorem fqdn_strip (n : String) :
    (ServerBrowser.fqdnOf n).data.take
      ((ServerBrowser.fqdnOf n).data.length - (_ZC_SERVICE_TYPE.data.length + 1))
      = n.data := by
  show (n.data ++ ("." ++ _ZC_SERVICE_TYPE).data).take _ = n.data
  rw [show (ServerBrowser.fqdnOf n).data = n.data ++ ("." ++ _ZC_SERVICE_TYPE).data
      from rfl]
  rw [List.length_append, suffix_data_length]
  rw [show n.data.length + (_ZC_SERVICE_TYPE.data.length + 1)
      - (_ZC_SERVICE_TYPE.data.length + 1) = n.data.length by omega]
  exact List.take_left n.data _

theorem fqdnOf_inj {m n : String} (h : ServerBrowser.fqdnOf m = ServerBrowser.fqdnOf n) :
    m = n := by
  have hd : m.data ++ ("." ++ _ZC_SERVICE_TYPE).data
      = n.data ++ ("." ++ _ZC_SERVICE_TYPE).data := congrArg String.data h
  have hlen : m.data.length = n.data.length := by
    have := congrArg List.length hd
    rw [List.length_append, List.length_append] at this
    omega
  apply String.ext
  calc m.data = (m.data ++ ("." ++ _ZC_SERVICE_TYPE).data).take m.data.length :=
        (List.take_left m.data _).symm
    _ = (n.data ++ ("." ++ _ZC_SERVICE_TYPE).data).take n.data.length := by
        rw [hd, hlen]
    _ = n.data := List.take_left n.data _

namespace ServerBrowser

theorem emissionsFor_append (n : String) (a b : List BEffect) :
    emissionsFor n (a ++ b) = emissionsFor n a ++ emissionsFor n b := by
  induction a with
  | nil => rfl
  | cons e a ih =>
      cases e with
      | sigAddServer i => by_cases h : i.name = n <;> simp [emissionsFor, h, ih]
      | sigRemoveServer i => by_cases h : i.name = n <;> simp [emissionsFor, h, ih]
      | browserLogWarn => simp [emissionsFor, ih]
      | browserRaised e => simp [emissionsFor, ih]

theorem alternation_aux : ∀ (tr : List ZCEvent) (s : ListenerState),
    ValidZCTrace s tr →
    (s.servers.map Prod.fst).Nodup →
    (∀ p ∈ s.servers, p.1 = fqdnOf p.2.name) →
    ∀ n, AltSeq (assocLookup s.servers (fqdnOf n))
      (emissionsFor n (listenerRun s tr).2) := by
  intro tr
  induction tr with
  | nil => intro s _ _ _ n; exact .nil
  | cons e tr ih =>
      intro s hv hnodup hmap n
      cases hv with
      | @add _ type name addr port _ hnone hv' =>
          rw [show (listenerRun s (.addService type name addr port :: tr)).2
              = (listenerStep s (.addService type name addr port)).2
                ++ (listenerRun (listenerStep s (.addService type name addr port)).1 tr).2
              from rfl, emissionsFor_append]
          by_cases halive : s.alive
          · by_cases htype : type = _ZC_SERVICE_TYPE
            · by_cases hends : pyEndsWith name ("." ++ _ZC_SERVICE_TYPE) = true
              · -- the real registration branch
                have hstep : listenerStep s (.addService type name addr port)
                    = ({ s with servers :=
                          assocSet s.servers name (infoOf name addr port) },
                        [.sigAddServer (infoOf name addr port)]) := by
                  simp [listenerStep, addService, halive, htype, hends]
                rw [hstep] at hv' ⊢
                have hkey : name = fqdnOf (infoOf name addr port).name := by
                  apply String.ext
                  exact (strip_append name hends).symm
                have hnodup' : ((assocSet s.servers name
                    (infoOf name addr port)).map Prod.fst).Nodup :=
                  keys_nodup_assocSet _ _ _ hnodup
                have hmap' : ∀ p ∈ assocSet s.servers name (infoOf name addr port),
                    p.1 = fqdnOf p.2.name := by
                  intro p hp
                  rcases mem_assocSet _ _ _ _ hp with h' | h'
                  · exact hmap p h'
                  · rw [h']
                    exact hkey
                have hrec := ih _ hv' hnodup' hmap' n
                by_cases hn : (infoOf name addr port).name = n
                · have hname_eq : name = fqdnOf n := by rw [← hn]; exact hkey
                  simp only [emissionsFor, hn, if_pos rfl]
                  rw [show assocLookup s.servers (fqdnOf n) = none from by
                    rw [← hname_eq]; exact hnone htype]
                  apply AltSeq.add
                  rw [show assocLookup (assocSet s.servers name
                      (infoOf name addr port)) (fqdnOf n)
                      = some (infoOf name addr port) from by
                    rw [← hname_eq]; exact assocLookup_assocSet_self _ _ _] at hrec
                  exact hrec
                · have hne : fqdnOf n ≠ name := by
                    intro he
                    apply hn
                    apply String.ext
                    have hsh : (infoOf name addr port).name.data
                        = (fqdnOf n).data.take
                            ((fqdnOf n).data.length
                              - (_ZC_SERVICE_TYPE.data.length + 1)) := by
                      rw [he]; rfl
                    rw [hsh, fqdn_strip]
                  simp only [emissionsFor, hn, if_neg hn]
                  rw [assocLookup_assocSet_ne _ _ _ _ hne] at hrec
                  exact hrec
              · -- assertion failure: warning effect only, no state change
                have hstep : listenerStep s (.addService type name addr port)
                    = (s, [.browserRaised .assertionError]) := by
                  simp [listenerStep, addService, halive, htype, hends]
                rw [hstep] at hv' ⊢
                simpa [emissionsFor] using ih _ hv' hnodup hmap n
            · have hstep : listenerStep s (.addService type name addr port)
                  = (s, []) := by
                simp [listenerStep, addService, halive, htype]
              rw [hstep] at hv' ⊢
              simpa [emissionsFor] using ih _ hv' hnodup hmap n
          · have hstep : listenerStep s (.addService type name addr port)
                = (s, []) := by
              simp [listenerStep, addService, halive]
            rw [hstep] at hv' ⊢
            simpa [emissionsFor] using ih _ hv' hnodup hmap n
      | @remove _ type name _ hv' =>
          rw [show (listenerRun s (.removeService type name :: tr)).2
              = (listenerStep s (.removeService type name)).2
                ++ (listenerRun (listenerStep s (.removeService type name)).1 tr).2
              from rfl, emissionsFor_append]
          by_cases halive : s.alive
          · by_cases htype : type = _ZC_SERVICE_TYPE
            · cases hlook : assocLookup s.servers name with
              | none =>
                  have hstep : listenerStep s (.removeService type name)
                      = (s, [.browserLogWarn]) := by
                    simp [listenerStep, removeService, halive, htype, hlook]
                  rw [hstep] at hv' ⊢
                  simpa [emissionsFor] using ih _ hv' hnodup hmap n
              | some info =>
                  have hstep : listenerStep s (.removeService type name)
                      = ({ s with servers := assocErase s.servers name },
                          [.sigRemoveServer info]) := by
                    simp [listenerStep, removeService, halive, htype, hlook]
                  rw [hstep] at hv' ⊢
                  have hkey : name = fqdnOf info.name :=
                    hmap _ (assocLookup_mem _ _ _ hlook)
                  have hnodup' : ((assocErase s.servers name).map Prod.fst).Nodup :=
                    keys_nodup_assocErase _ _ hnodup
                  have hmap' : ∀ p ∈ assocErase s.servers name, p.1 = fqdnOf p.2.name :=
                    fun p hp => hmap p (mem_assocErase _ _ _ hp)
                  have hrec := ih _ hv' hnodup' hmap' n
                  by_cases hn : info.name = n
                  · have hname_eq : name = fqdnOf n := by rw [← hn]; exact hkey
                    simp only [emissionsFor, hn, if_pos rfl]
                    rw [show assocLookup s.servers (fqdnOf n) = some info from by
                      rw [← hname_eq]; exact hlook]
                    apply AltSeq.remove
                    rw [show assocLookup (assocErase s.servers name) (fqdnOf n) = none
                        from by rw [← hname_eq]; exact
                          assocLookup_assocErase_self _ _ hnodup] at hrec
                    exact hrec
                  · have hne : fqdnOf n ≠ name := by
                      intro he
                      exact hn (fqdnOf_inj (he ▸ hkey).symm)
                    simp only [emissionsFor, hn, if_neg hn]
                    rw [assocLookup_assocErase_ne _ _ _ hne] at hrec
                    exact hrec
            · have hstep : listenerStep s (.removeService type name) = (s, []) := by
                simp [listenerStep, removeService, halive, htype]
              rw [hstep] at hv' ⊢
              simpa [emissionsFor] using ih _ hv' hnodup hmap n
          · have hstep : listenerStep s (.removeService type name) = (s, []) := by
              simp [listenerStep, removeService, halive]
            rw [hstep] at hv' ⊢
            simpa [emissionsFor] using ih _ hv' hnodup hmap n

end ServerBrowser

/-- C8 (amended): provided the zeroconf library delivers Kinect-type
`addService`/`removeService` callbacks alternately per service name (it never
re-announces a name it has not withdrawn), the listener's emissions alternate
per server name from the empty initial state: adds and removes for a name
strictly alternate starting with an add, and every `on_remove_server`
emission carries a `ServerInfo` equal to the one emitted by the add it
closes. Without that assumption the listener emits an add for every
`addService` callback, so two adds for one name can occur back to back. -/
theorem browser_add_remove_alternation (alive : Bool)
    (tr : List ServerBrowser.ZCEvent)
    (hv : ServerBrowser.ValidZCTrace ⟨alive, []⟩ tr) (n : String) :
    ServerBrowser.AltSeq none
      (ServerBrowser.emissionsFor n (ServerBrowser.listenerRun ⟨alive, []⟩ tr).2) :=
  ServerBrowser.alternation_aux tr ⟨alive, []⟩ hv (by simp) (by simp) n

theorem browser_add_remove_alternation_witness :
    ServerBrowser.AltSeq none
      (ServerBrowser.emissionsFor "s1"
        (ServerBrowser.listenerRun ⟨true, []⟩
          [.addService _ZC_SERVICE_TYPE "s1._kinect2._tcp.local." "127.0.0.1" 4000,
           .removeService _ZC_SERVICE_TYPE "s1._kinect2._tcp.local."]).2) :=
  browser_add_remove_alternation true _ (.add (fun _ => rfl) (.remove .nil)) "s1"

/-- C8 counterexample: two `addService` callbacks for the same name with no
`removeService` between them make the listener emit two `on_add_server`
signals for the server name "s1" with no intervening `on_remove_server`: the
claimed alternation fails over unconstrained callback sequences. -/
theorem browser_double_add_counterexample :
    (ServerBrowser.listenerRun ⟨true, []⟩
      [.addService _ZC_SERVICE_TYPE "s1._kinect2._tcp.local." "127.0.0.1" 4000,
       .addService _ZC_SERVICE_TYPE "s1._kinect2._tcp.local." "127.0.0.1" 4001]).2
      = [.sigAddServer ⟨"s1", "tcp://127.0.0.1:4000"⟩,
         .sigAddServer ⟨"s1", "tcp://127.0.0.1:4001"⟩] ∧
    ServerBrowser.emissionsFor "s1"
      (ServerBrowser.listenerRun ⟨true, []⟩
        [.addService _ZC_SERVICE_TYPE "s1._kinect2._tcp.local." "127.0.0.1" 4000,
         .addService _ZC_SERVICE_TYPE "s1._kinect2._tcp.local." "127.0.0.1" 4001]).2
      = [(true, ⟨"s1", "tcp://127.0.0.1:4000"⟩),
         (true, ⟨"s1", "tcp://127.0.0.1:4001"⟩)] ∧
    ¬ ServerBrowser.AltSeq none
        [(true, ⟨"s1", "tcp://127.0.0.1:4000"⟩),
         (true, ⟨"s1", "tcp://127.0.0.1:4001"⟩)] := by
  refine ⟨rfl, rfl, ?_⟩
  intro h
  cases h with
  | add h2 => cases h2

end Streamkinect2
